import Mathlib

/-!
Verification of the `vtsaggregator` monitoring aggregator
(repository Seravo/milliseconds) against its natural-language
specification.

The Python sources (`vtsaggregator.py`, `typevalidator.py`) are shallowly
embedded below: pure functions become Lean functions over `ℚ`/`ℤ`, the
dynamically typed Python numbers become the `PyNum` sum type (so that the
`int`/`float` branch of the 52-bit reduction in `TimeSeries.add` is
modelled faithfully), mutation becomes explicit state passing, and the
scrape-loop tick becomes a step function on the loop variables.
-/

namespace Vts

/-! ## Python numeric primitives

`int(x)` on a float truncates toward zero; `round(x)` rounds half to even
(round half to even); `math.fmod(x, m)` is `x - m * int(x / m)`.
-/

/-- Python `int(x)` applied to a number: truncation toward zero. -/
def pyTrunc (x : ℚ) : ℤ := if 0 ≤ x then ⌊x⌋ else ⌈x⌉

/-- Python `round(x)` with no digits argument: round half to even. -/
def pyRound (x : ℚ) : ℤ :=
  let f := ⌊x⌋
  let r := x - (f : ℚ)
  if r < 1/2 then f
  else if 1/2 < r then f + 1
  else if f % 2 = 0 then f else f + 1

/-- Python `math.fmod(x, m)`: remainder with the sign of `x`. -/
def pyFmod (x m : ℚ) : ℚ := x - m * (pyTrunc (x / m) : ℚ)

/-- A Python number: an `int` or a `float`.  `vtsaggregator` stores both in
time-series values (histogram/byte/request counters are ints,
`requestMsecCounter / 1000` is a float).  Floats are idealized as
rationals. -/
inductive PyNum where
  | int (n : ℤ)
  | float (q : ℚ)
deriving DecidableEq, Repr

namespace PyNum

/-- Numeric value of a Python number (Python compares and mixes
`int`/`float` by numeric value). -/
def toRat : PyNum → ℚ
  | .int n => (n : ℚ)
  | .float q => q

/-- Python `+` on numbers: `int + int` is an `int`, anything involving a
float is a float. -/
def add : PyNum → PyNum → PyNum
  | .int a, .int b => .int (a + b)
  | .int a, .float b => .float ((a : ℚ) + b)
  | .float a, .int b => .float (a + (b : ℚ))
  | .float a, .float b => .float (a + b)

/-- Python `-` on numbers. -/
def sub : PyNum → PyNum → PyNum
  | .int a, .int b => .int (a - b)
  | .int a, .float b => .float ((a : ℚ) - b)
  | .float a, .int b => .float (a - (b : ℚ))
  | .float a, .float b => .float (a - b)

end PyNum

/-! ## TimeSeries (`vtsaggregator.py` lines 211-292)

`TimeSeries` holds a label dictionary and a `deque(maxlen=2)` of
`(t, value)` samples, oldest first.  Label values are strings except the
histogram attribute `le`, which is a float. -/

/-- A label value in a `key_dict`: a string, or the float `le` bucket
bound. -/
inductive KeyVal where
  | str (s : String)
  | num (q : ℚ)
deriving DecidableEq, Repr

/-- The overflow limit `1 << 52` of `TimeSeries.add`. -/
def overflowLimit : ℤ := 2 ^ 52

/-- The 52-bit reduction applied by `TimeSeries.add` (lines 216-222):
if `value >= 1 << 52`, an `int` is masked with `(1 << 52) - 1` and a
`float` is reduced with `math.fmod(value, 1 << 52)`. -/
def pyReduce (v : PyNum) : PyNum :=
  if (overflowLimit : ℚ) ≤ v.toRat then
    match v with
    | .int n => .int (Int.land n (overflowLimit - 1))
    | .float q => .float (pyFmod q (overflowLimit : ℚ))
  else v

/-- A time-series: the originating label set and the sample deque
(`deque(maxlen=2)`), oldest first. -/
structure TimeSeries where
  key_dict : List (String × KeyVal)
  data : List (ℚ × PyNum)
deriving DecidableEq, Repr

namespace TimeSeries

/-- Append to a `deque(maxlen=2)`: when two samples are already present
the oldest is dropped. -/
def dequeAppend (data : List (ℚ × PyNum)) (x : ℚ × PyNum) : List (ℚ × PyNum) :=
  match data with
  | [] => [x]
  | [a] => [a, x]
  | _ :: b :: _ => [b, x]

/-- Embeds `TimeSeries.add(t, value)` (lines 216-223): apply the 52-bit
reduction, then append to the bounded deque. -/
def add (ts : TimeSeries) (t : ℚ) (value : PyNum) : TimeSeries :=
  { ts with data := dequeAppend ts.data (t, pyReduce value) }

/-- Embeds `TimeSeries.drop_everything_but_latest()` (lines 225-229). -/
def drop_everything_but_latest (ts : TimeSeries) : TimeSeries :=
  match ts.data with
  | a :: b :: rest =>
    { ts with data := [(a :: b :: rest).getLast (by simp)] }
  | _ => ts

/-- Embeds `TimeSeries.sum(other)` (lines 231-249): merge the most recent sample
of `other` into `self`.  The same-timestamp branch assigns
`(t, value + value_other)` directly into the deque, without going through
`add` (and hence without the 52-bit reduction). -/
def sum (ts other : TimeSeries) : TimeSeries :=
  match other.data.getLast? with
  | none => ts
  | some (tOther, valueOther) =>
    match ts.data.getLast? with
    | none => ts.add tOther valueOther
    | some (t, value) =>
      if tOther < t then ts
      else if t < tOther then ts.add tOther valueOther
      else { ts with data := ts.data.dropLast ++ [(t, value.add valueOther)] }

/-- Embeds `TimeSeries.get_diff(interval, mutable)` (lines 251-268).  Returns the
Python result (`None` modelled as `none`) together with the series after
the call, since the negative-diff branch mutates `self` when `mutable`
is true.  The deque holds at most two samples, so `data[-2]`, `data[-1]`
are exactly the two elements of a length-2 deque. -/
def get_diff (ts : TimeSeries) (interval : ℚ) (mutable : Bool) :
    Option PyNum × TimeSeries :=
  match ts.data with
  | [dataPrev, dataLatest] =>
    let tdelta := dataLatest.1 - dataPrev.1
    if 5/2 * interval < tdelta then (none, ts)
    else
      let diff := dataLatest.2.sub dataPrev.2
      if diff.toRat < 0 then
        (none, if mutable then ts.drop_everything_but_latest else ts)
      else (some diff, ts)
  | _ => (none, ts)

/-- Embeds `TimeSeries.serialize()` (lines 276-279): a deep copy of the label
set and the sample list, as plain data. -/
def serialize (ts : TimeSeries) : List (String × KeyVal) × List (ℚ × PyNum) :=
  (ts.key_dict, ts.data)

/-- Embeds `TimeSeries.unserialize(d)` (lines 281-286): build a fresh series and
`add` every serialized sample in order (hence re-applying the 52-bit
reduction of `add`). -/
def unserialize (d : List (String × KeyVal) × List (ℚ × PyNum)) : TimeSeries :=
  d.2.foldl (fun ts x => ts.add x.1 x.2) ⟨d.1, []⟩

end TimeSeries

/-! ## Claims C6, C9, C10 -/

/-- C6: for a `TimeSeries` holding exactly two samples `(t_prev, v_prev)`,
`(t_cur, v_cur)` and any interval, `get_diff` returns unavailable when
`t_cur - t_prev > 2.5 * interval`; otherwise, when `v_cur - v_prev < 0`
it returns unavailable and reduces the stored data to only the latest
sample exactly when `mutable` is true; otherwise it returns
`v_cur - v_prev`; and with fewer than two samples it returns
unavailable. -/
theorem get_diff_spec (k : List (String × KeyVal)) (tPrev tCur : ℚ)
    (vPrev vCur : PyNum) (interval : ℚ) (mutable : Bool) :
    (5/2 * interval < tCur - tPrev →
      TimeSeries.get_diff ⟨k, [(tPrev, vPrev), (tCur, vCur)]⟩ interval mutable =
        (none, ⟨k, [(tPrev, vPrev), (tCur, vCur)]⟩)) ∧
    (tCur - tPrev ≤ 5/2 * interval → (vCur.sub vPrev).toRat < 0 →
      TimeSeries.get_diff ⟨k, [(tPrev, vPrev), (tCur, vCur)]⟩ interval mutable =
        (none, if mutable then ⟨k, [(tCur, vCur)]⟩
               else ⟨k, [(tPrev, vPrev), (tCur, vCur)]⟩)) ∧
    (tCur - tPrev ≤ 5/2 * interval → 0 ≤ (vCur.sub vPrev).toRat →
      TimeSeries.get_diff ⟨k, [(tPrev, vPrev), (tCur, vCur)]⟩ interval mutable =
        (some (vCur.sub vPrev), ⟨k, [(tPrev, vPrev), (tCur, vCur)]⟩)) ∧
    (∀ ts : TimeSeries, ts.data.length < 2 →
      ts.get_diff interval mutable = (none, ts)) := by
  refine ⟨fun hlate => ?_, fun hok hneg => ?_, fun hok hpos => ?_, fun ts hlen => ?_⟩
  · simp only [TimeSeries.get_diff]
    rw [if_pos hlate]
  · simp only [TimeSeries.get_diff]
    rw [if_neg (not_lt.mpr hok), if_pos hneg]
    cases mutable <;> simp [TimeSeries.drop_everything_but_latest]
  · simp only [TimeSeries.get_diff]
    rw [if_neg (not_lt.mpr hok), if_neg (not_lt.mpr hpos)]
  · obtain ⟨k2, data⟩ := ts
    rcases data with _ | ⟨a, _ | ⟨b, rest⟩⟩
    · rfl
    · rfl
    · simp only [List.length_cons] at hlen
      omega

/-- Witness for C6: a concrete negative-diff call in mutable mode drops
the older sample and returns unavailable. -/
theorem get_diff_spec_witness :
    TimeSeries.get_diff ⟨[], [(0, .int 5), (10, .int 3)]⟩ 60 true =
      (none, ⟨[], [(10, PyNum.int 3)]⟩) := by
  have h := (get_diff_spec [] 0 10 (.int 5) (.int 3) 60 true).2.1
    (by norm_num) (by decide)
  simpa using h

/-- C9 counterexample: a series holding a single sample whose value is
`2 ^ 52` (reachable through a same-timestamp `TimeSeries.sum`, which
skips the 52-bit reduction: see C10) does not round-trip:
`unserialize` re-applies `add`, masking the value down to `0`. -/
theorem serialize_roundtrip_counterexample :
    TimeSeries.unserialize
        (TimeSeries.serialize ⟨[], [(1, .int (2 ^ 52))]⟩) ≠
      (⟨[], [(1, .int (2 ^ 52))]⟩ : TimeSeries) ∧
    TimeSeries.unserialize (TimeSeries.serialize ⟨[], [(1, .int (2 ^ 52))]⟩) =
      (⟨[], [(1, .int 0)]⟩ : TimeSeries) := by
  constructor
  · decide
  · decide

/-- C9 (amended): deserializing the serialized form is the identity on
every `TimeSeries` with at most two samples all of whose stored values
are below `2 ^ 52` (so that the 52-bit reduction re-applied by
`unserialize` is a no-op). -/
theorem serialize_roundtrip (ts : TimeSeries)
    (hlen : ts.data.length ≤ 2)
    (hvals : ∀ x ∈ ts.data, x.2.toRat < (overflowLimit : ℚ)) :
    TimeSeries.unserialize (TimeSeries.serialize ts) = ts := by
  obtain ⟨k, data⟩ := ts
  have hred : ∀ x ∈ data, pyReduce x.2 = x.2 := by
    intro x hx
    have hv := hvals x hx
    simp only [pyReduce]
    rw [if_neg (not_le.mpr hv)]
  rcases data with _ | ⟨a, _ | ⟨b, rest⟩⟩
  · rfl
  · simp [TimeSeries.unserialize, TimeSeries.serialize, TimeSeries.add,
      TimeSeries.dequeAppend, hred a (by simp)]
  · rcases rest with _ | ⟨c, rest⟩
    · simp [TimeSeries.unserialize, TimeSeries.serialize, TimeSeries.add,
        TimeSeries.dequeAppend, hred a (by simp), hred b (by simp)]
    · simp only [List.length_cons] at hlen
      omega

/-- Witness for C9: a concrete two-sample series round-trips. -/
theorem serialize_roundtrip_witness :
    TimeSeries.unserialize
        (TimeSeries.serialize
          ⟨[("zone", KeyVal.str "200")], [(0, .int 5), (60, .float (3/2))]⟩) =
      (⟨[("zone", KeyVal.str "200")], [(0, .int 5), (60, .float (3/2))]⟩ :
        TimeSeries) :=
  serialize_roundtrip _ (by decide)
    (by
      intro x hx
      fin_cases hx <;> norm_num [PyNum.toRat, overflowLimit])

/-- C10: a same-timestamp merge through `TimeSeries.sum` stores
`self_value + other_value` directly in the deque, without the 52-bit
reduction applied by `add`; consequently merging two series whose latest
values are both `2 ^ 51` (each below `2 ^ 52`) at the same timestamp
leaves the stored value `2 ^ 52 ≥ 2 ^ 52` in the series, while `add`
would have reduced that value to `0`. -/
theorem sum_same_timestamp_no_reduction :
    (∀ (k1 k2 : List (String × KeyVal)) (t : ℚ) (v1 v2 : PyNum),
      TimeSeries.sum ⟨k1, [(t, v1)]⟩ ⟨k2, [(t, v2)]⟩ =
        (⟨k1, [(t, v1.add v2)]⟩ : TimeSeries)) ∧
    TimeSeries.sum ⟨[], [(5, .int (2 ^ 51))]⟩ ⟨[], [(5, .int (2 ^ 51))]⟩ =
      (⟨[], [(5, .int (2 ^ 52))]⟩ : TimeSeries) ∧
    (PyNum.int (2 ^ 51)).toRat < (overflowLimit : ℚ) ∧
    (overflowLimit : ℚ) ≤ (PyNum.int (2 ^ 52)).toRat ∧
    pyReduce (.int (2 ^ 52)) = .int 0 := by
  refine ⟨fun k1 k2 t v1 v2 => ?_, by decide, by decide, by decide, by decide⟩
  simp [TimeSeries.sum, lt_irrefl]

/-! ## Metrics projector: per-zone stats record
(`State._get_backend_metrics`, lines 695-766)

The per-zone `stats` dictionary is built in insertion order:
`bytes`, `bytes_in`, `count`, `sum`, `avg`, then — when
`self._t_prev is not None and t_cur > self._t_prev` — the four rate
fields `<name>:rate<interval>s` for `bytes`, `bytes_in`, `count`, `sum`.
`_t_prev` is never `None` in the program (it is initialized to `-1.0`
and only ever assigned floats: line 439, line 546, line 661), so the
guard reduces to `t_cur > t_prev` and is modelled that way, with
`t_prev : ℚ`.  The diffs fed in are the `Option` results of
`_get_timeseries_diff` for the four source series of the zone. -/

/-- The `rate<interval>s` suffix built at line 716. -/
def rateSuffix (interval : ℕ) : String := "rate" ++ toString interval ++ "s"

/-- One rate field value (lines 762-766): `None` stays `None`, otherwise
`rate = value / (t_cur - t_prev)` and the stored value is
`int(rate * 100) / 100` — truncation toward zero, not rounding. -/
def rateOf (dt : ℚ) (v : Option ℚ) : Option ℚ :=
  v.map fun x => (pyTrunc (x / dt * 100) : ℚ) / 100

/-- The per-zone stats record of `_get_backend_metrics` (lines 721-766)
as an insertion-ordered association list.  `bytes`, `bytesIn`, `count`,
`sumDiff` are the diffs of the four source series (`None` when
unavailable); `sum` is `round(sum_diff * 1000)` and `avg` is
`round(sum_diff * 1000 / max(1, count))` when defined (lines 751-757). -/
def zoneStats (bytes bytesIn count sumDiff : Option ℚ)
    (tPrev tCur : ℚ) (interval : ℕ) : List (String × Option ℚ) :=
  let sumVal : Option ℚ := sumDiff.map fun s => (pyRound (s * 1000) : ℚ)
  let avgVal : Option ℚ :=
    match sumDiff, count with
    | some s, some c => some (pyRound (s * 1000 / max 1 c) : ℚ)
    | _, _ => none
  let base := [("bytes", bytes), ("bytes_in", bytesIn), ("count", count),
               ("sum", sumVal), ("avg", avgVal)]
  if tPrev < tCur then
    base ++
      [("bytes:" ++ rateSuffix interval, rateOf (tCur - tPrev) bytes),
       ("bytes_in:" ++ rateSuffix interval, rateOf (tCur - tPrev) bytesIn),
       ("count:" ++ rateSuffix interval, rateOf (tCur - tPrev) count),
       ("sum:" ++ rateSuffix interval, rateOf (tCur - tPrev) sumVal)]
  else base

/-- C2 counterexample: on the first tick after a fresh start
(`t_prev = -1`, every diff unavailable, `t_cur = 100`, interval 60) the
rate keys are NOT absent: `count:rate60s` is present in the record (with
a null value), because the code only suppresses rates when
`t_cur <= t_prev`, and the sentinel `-1` satisfies `t_cur > t_prev`. -/
theorem rate_keys_present_on_first_tick :
    ("count:" ++ rateSuffix 60) ∈
      (zoneStats none none none none (-1) 100 60).map Prod.fst ∧
    (zoneStats none none none none (-1) 100 60).lookup
      ("count:" ++ rateSuffix 60) = some none := by
  constructor
  · norm_num [zoneStats, rateSuffix]
  · norm_num [zoneStats, rateSuffix, List.lookup, rateOf]
    rfl

/-- C2 (amended): the four rate keys are present in the per-zone record
exactly when `t_cur > t_prev`; the sentinel `t_prev = -1` does not
suppress them (on a true first tick they are present with null values,
since every source diff is null).  They are omitted only when
`t_cur ≤ t_prev`. -/
theorem rate_keys_iff_time_advanced (bytes bytesIn count sumDiff : Option ℚ)
    (tPrev tCur : ℚ) (interval : ℕ) :
    (zoneStats bytes bytesIn count sumDiff tPrev tCur interval).map Prod.fst =
      if tPrev < tCur then
        ["bytes", "bytes_in", "count", "sum", "avg",
         "bytes:" ++ rateSuffix interval, "bytes_in:" ++ rateSuffix interval,
         "count:" ++ rateSuffix interval, "sum:" ++ rateSuffix interval]
      else ["bytes", "bytes_in", "count", "sum", "avg"] := by
  by_cases h : tPrev < tCur <;> simp [zoneStats, h]

/-- C3 counterexample: with `count` diff `100` over `t_cur - t_prev = 60`
seconds, the emitted `count:rate60s` is `int((100/60)*100)/100 = 1.66`
(truncation), while the rounding formula of the claim, `round((100/60)*100)/100`, is `1.67`. -/
theorem rate_rounding_counterexample :
    (zoneStats none none (some 100) none 0 60 60).get? 7 =
      some ("count:" ++ rateSuffix 60, some (83/50)) ∧
    (pyRound ((100 / (60 - 0 : ℚ)) * 100) : ℚ) / 100 = 167/100 ∧
    (83/50 : ℚ) ≠ 167/100 := by
  refine ⟨?_, ?_, by norm_num⟩
  · norm_num [zoneStats, rateSuffix, rateOf, pyTrunc]
  · norm_num [pyRound]

/-- C3 (amended): for every non-null source value among `bytes`,
`bytes_in`, `count` and the rounded millisecond `sum`, and `t_cur >
t_prev`, the emitted rate field is `value / (t_cur - t_prev)` truncated
toward zero at two decimals, i.e. `int(rate * 100) / 100` — not rounded.
For `sum` the value fed in is the already-rounded `round(sum_diff*1000)`. -/
theorem rate_truncation (b bi c s : ℚ) (tPrev tCur : ℚ) (interval : ℕ)
    (h : tPrev < tCur) :
    (zoneStats (some b) (some bi) (some c) (some s) tPrev tCur interval).get? 5 =
      some ("bytes:" ++ rateSuffix interval,
        some ((pyTrunc (b / (tCur - tPrev) * 100) : ℚ) / 100)) ∧
    (zoneStats (some b) (some bi) (some c) (some s) tPrev tCur interval).get? 6 =
      some ("bytes_in:" ++ rateSuffix interval,
        some ((pyTrunc (bi / (tCur - tPrev) * 100) : ℚ) / 100)) ∧
    (zoneStats (some b) (some bi) (some c) (some s) tPrev tCur interval).get? 7 =
      some ("count:" ++ rateSuffix interval,
        some ((pyTrunc (c / (tCur - tPrev) * 100) : ℚ) / 100)) ∧
    (zoneStats (some b) (some bi) (some c) (some s) tPrev tCur interval).get? 8 =
      some ("sum:" ++ rateSuffix interval,
        some ((pyTrunc ((pyRound (s * 1000) : ℚ) / (tCur - tPrev) * 100) : ℚ) /
          100)) := by
  refine ⟨?_, ?_, ?_, ?_⟩ <;> simp [zoneStats, rateOf, h]

/-- Witness for C3 (amended): concrete second tick, `count` diff 1 over
60 seconds. -/
theorem rate_truncation_witness :
    (zoneStats (some 1) (some 1) (some 1) (some 1) 0 60 60).get? 7 =
      some ("count:" ++ rateSuffix 60,
        some ((pyTrunc ((1 : ℚ) / (60 - 0) * 100) : ℚ) / 100)) :=
  (rate_truncation 1 1 1 1 0 60 60 (by norm_num)).2.2.1

/-! ## Scrape loop scheduling (`run_vtsaggregator`, lines 1026-1090, and
`_get_start_time`, lines 906-913) -/

/-- The `while True: if timet % interval == 0: return timet; timet += 1`
loop of `_get_start_time` (lines 909-912), with explicit fuel; `interval`
steps always suffice to reach a multiple (proved in
`findDivisible_spec`). -/
def findDivisible : ℤ → ℕ → ℕ → ℤ
  | t, _, 0 => t
  | t, i, fuel + 1 => if t % (i : ℤ) = 0 then t else findDivisible (t + 1) i fuel

/-- Embeds `_get_start_time(timet, interval)` (lines 906-913): `timet` is first
rounded with Python `round` (half to even), then incremented until
divisible by `interval`. -/
def get_start_time (timet : ℚ) (interval : ℕ) : ℤ :=
  findDivisible (pyRound timet) interval interval

/-- Helper: the incrementing loop returns the least multiple of `i` that
is `≥ t`, provided some multiple lies within `fuel` steps. -/
theorem findDivisible_spec (i : ℕ) (hi : 0 < i) :
    ∀ (fuel : ℕ) (t : ℤ), (∃ j : ℕ, j < fuel ∧ (i : ℤ) ∣ (t + j)) →
      (i : ℤ) ∣ findDivisible t i fuel ∧ t ≤ findDivisible t i fuel ∧
        ∀ m : ℤ, (i : ℤ) ∣ m → t ≤ m → findDivisible t i fuel ≤ m := by
  intro fuel
  induction fuel with
  | zero =>
    intro t ⟨j, hj, _⟩
    omega
  | succ fuel ih =>
    intro t ⟨j, hj, hdvd⟩
    by_cases hdvd0 : t % (i : ℤ) = 0
    · have heq : findDivisible t i (fuel + 1) = t := by
        simp [findDivisible, hdvd0]
      rw [heq]
      exact ⟨Int.dvd_of_emod_eq_zero hdvd0, le_refl t, fun m _ hm => hm⟩
    · have hne : findDivisible t i (fuel + 1) = findDivisible (t + 1) i fuel := by
        simp [findDivisible, hdvd0]
      have hj0 : j ≠ 0 := by
        rintro rfl
        exact hdvd0 (Int.emod_eq_zero_of_dvd (by simpa using hdvd))
      obtain ⟨j, rfl⟩ := Nat.exists_eq_succ_of_ne_zero hj0
      have harg : t + 1 + (j : ℤ) = t + ((j + 1 : ℕ) : ℤ) := by push_cast; ring
      have hrec := ih (t + 1) ⟨j, by omega, harg ▸ hdvd⟩
      rw [hne]
      refine ⟨hrec.1, le_trans (by omega) hrec.2.1, fun m hmdvd hm => ?_⟩
      have hmt : m ≠ t := by
        rintro rfl
        exact hdvd0 (Int.emod_eq_zero_of_dvd hmdvd)
      exact hrec.2.2 m hmdvd (by omega)

/-- C5 counterexample: with `now = 60.25` and `interval = 60`, the
production-mode first tick time is `60`, which is strictly below `now`:
`round(60.25) = 60` precedes the divisibility search, so the result is
not the smallest multiple of the interval that is `≥ now` (that would be
`120`). -/
theorem start_time_counterexample :
    get_start_time (241/4) 60 = 60 ∧ ((60 : ℤ) : ℚ) < 241/4 := by
  constructor
  · have h1 : pyRound (241/4) = 60 := by norm_num [pyRound]
    rw [get_start_time, h1]
    decide
  · norm_num

/-- C5 (amended): for every wall-clock time and positive interval, the
production-mode first-tick time is the smallest multiple of `interval`
that is `≥ round(now)` (Python round, half to even) — which can be up to
half a second earlier than `now` itself. -/
theorem start_time_spec (timet : ℚ) (interval : ℕ) (hi : 0 < interval) :
    (interval : ℤ) ∣ get_start_time timet interval ∧
    pyRound timet ≤ get_start_time timet interval ∧
    ∀ m : ℤ, (interval : ℤ) ∣ m → pyRound timet ≤ m →
      get_start_time timet interval ≤ m := by
  set t := pyRound timet with ht
  have hipos : (0 : ℤ) < (interval : ℤ) := by exact_mod_cast hi
  have hex : ∃ j : ℕ, j < interval ∧ (interval : ℤ) ∣ (t + j) := by
    refine ⟨((-t) % (interval : ℤ)).toNat, ?_, ?_⟩
    · have h1 : (-t) % (interval : ℤ) < (interval : ℤ) :=
        Int.emod_lt_of_pos _ hipos
      have h2 : 0 ≤ (-t) % (interval : ℤ) := Int.emod_nonneg _ (by omega)
      omega
    · have h2 : 0 ≤ (-t) % (interval : ℤ) := Int.emod_nonneg _ (by omega)
      have h3 : ((((-t) % (interval : ℤ)).toNat : ℤ)) = (-t) % (interval : ℤ) :=
        Int.toNat_of_nonneg h2
      rw [h3, Int.emod_def]
      exact ⟨-((-t) / (interval : ℤ)), by ring⟩
  exact findDivisible_spec interval hi interval t hex

/-- Witness for C5 (amended): at `now = 100`, `interval = 60` the result
is `120`, the least multiple of 60 at or above `round(100) = 100`. -/
theorem start_time_spec_witness :
    (0 < 60 ∧ (60 : ℤ) ∣ get_start_time 100 60 ∧
      pyRound 100 ≤ get_start_time 100 60) ∧
    get_start_time 100 60 = 120 := by
  have h := start_time_spec 100 60 (by norm_num)
  have h1 : pyRound 100 = 100 := by norm_num [pyRound]
  refine ⟨⟨by norm_num, h.1, h.2.1⟩, ?_⟩
  rw [get_start_time, h1]
  decide

/-- The outcome of one iteration of the scrape loop
(`run_vtsaggregator`, lines 1047-1090), production mode. -/
inductive TickOutcome where
  /-- Case `t < t_next`: sleep until `t_next + 0.1` and retry; `t_next` is
  not advanced (the `continue` at line 1056). -/
  | slept
  /-- The loop woke before `t_next + late_margin`: the backends are
  fetched, a "Scraping was late" warning is logged when the fetch ends
  at or after the deadline (`lateWarned`), and then — unconditionally —
  `state.aggregate_backend_data` and `state.save()` run (lines
  1069-1080): every fetched series is appended, metrics are projected,
  `t_prev` advances and the checkpoint is written. -/
  | processed (lateWarned : Bool)
  /-- Case `t ≥ t_next + late_margin` before fetching: "Missed a minute
  interval", the tick is skipped (line 1088). -/
  | missed
deriving DecidableEq, Repr

/-- One iteration of the production-mode scrape loop (lines 1048-1090):
`t` is the wall clock at the top of the loop, `tEnd` the wall clock when
`fetch_backend_data` returns.  Returns the outcome and the new `t_next`. -/
def runTick (tNext : ℚ) (interval : ℕ) (lateMargin t tEnd : ℚ) :
    TickOutcome × ℚ :=
  if t < tNext then (.slept, tNext)
  else if t < tNext + lateMargin then
    (.processed (if tNext + lateMargin ≤ tEnd then true else false),
      tNext + (interval : ℚ))
  else (.missed, tNext + (interval : ℚ))

/-- C1: a tick whose fetch finishes past the deadline `t_next +
late_margin` is NOT discarded.  With `interval = 60`, `late_margin =
10`, `t_next = 60`, wake-up at `t = 60` and fetch completion at `t_end =
70.1 ≥ 70`: the loop logs the "Scraping was late ... Results are not
counted." warning, yet the outcome is `processed` — `aggregate_backend_data`
and `save()` still run, so the fetched results update the store, metrics
are projected from them and `t_prev` advances, while `t_next` moves to
`120`.  The code contradicts its own log message (and the claim). -/
theorem scrape_late_still_processed :
    runTick 60 60 10 60 (70 + 1/10) = (.processed true, 120) ∧
    (60 : ℚ) + 10 ≤ 70 + 1/10 := by
  constructor
  · norm_num [runTick]
  · norm_num

/-! ## Zone aggregation (`State._aggregate_zones`, lines 805-861)

For one updated series the loop body decides which sibling zones get a
`TimeSeries.sum` call (in order) and which strings are added to the
`status_code_zones` set.  Python `int(zone)` is modelled for non-empty
all-digit strings (`int` also strips whitespace and accepts a sign, but
zone labels carrying those never occur; the model returns `none` for
every other string, as `int` raises `ValueError` and the code
`continue`s). -/

/-- Embeds `CACHE_OTHER_ZONES` (lines 106-107). -/
def CACHE_OTHER_ZONES : List String :=
  ["EXPIRED", "REVALIDATED", "SCARCE", "STALE", "UPDATING"]

/-- Python `int(zone)` on a zone label: the numeric value of a non-empty
digit string, `ValueError` (modelled `none`) otherwise. -/
def pyParseInt (s : String) : Option ℤ :=
  if s.data ≠ [] ∧ s.data.all Char.isDigit = true then
    some ((s.data.foldl (fun a c => 10 * a + (c.toNat - 48)) 0 : ℕ) : ℤ)
  else none

/-- What `_aggregate_zones` does for one updated series: the zones of
the synthesized siblings that receive a `sum` call, in program order,
and the strings added to `status_code_zones`. -/
structure AggAction where
  sumZones : List String
  statusZones : List String
deriving DecidableEq, Repr

/-- The body of the `for ts in updated_ts` loop of `_aggregate_zones`
(lines 818-858): cache-other zones are summed into `cache_other`; a zone
whose label parses to an integer in `[100, 600)` is summed into `total`
and recorded, and — unless the label string equals `"503"` — also summed
into `str(status_code // 100) + "xx"`, which is recorded as well. -/
def aggregateZone (zone : String) : AggAction :=
  if zone ∈ CACHE_OTHER_ZONES then ⟨["cache_other"], []⟩
  else
    match pyParseInt zone with
    | none => ⟨[], []⟩
    | some statusCode =>
      if statusCode < 100 ∨ 600 ≤ statusCode then ⟨[], []⟩
      else if zone = "503" then ⟨["total"], [zone]⟩
      else
        ⟨["total", toString (statusCode / 100) ++ "xx"],
         [zone, toString (statusCode / 100) ++ "xx"]⟩

/-- C8 counterexample: the 503 exemption tests the label *string*, not
the parsed integer.  The zone label `"0503"` parses to `z = 503 ∈ [100,
600)`, yet it IS summed into `5xx` (and `"0503"`, not `"503"`, is
recorded), because `"0503" != "503"`; so the claim, quantified over the
parsed value `z`, fails. -/
theorem status_503_by_string_counterexample :
    pyParseInt "0503" = some 503 ∧
    aggregateZone "0503" = ⟨["total", "5xx"], ["0503", "5xx"]⟩ ∧
    aggregateZone "503" = ⟨["total"], ["503"]⟩ := by
  refine ⟨by decide, by decide, by decide⟩

/-- Helper: no cache-other zone name is a digit string. -/
theorem cache_other_not_numeric :
    ∀ s ∈ CACHE_OTHER_ZONES, pyParseInt s = none := by decide

/-- C8 (amended): for every updated series whose zone label parses to an
integer `z ∈ [100, 600)`, aggregation sums it into a `total` sibling
and, except when the zone *string* is exactly `"503"`, also into the
class sibling `str(z // 100) + "xx"`; the status-code-zones set gains
the original label string and the class name, except for the label
`"503"` where only `"503"` is added and nothing is summed into `5xx`. -/
theorem status_zone_aggregation (zone : String) (z : ℤ)
    (hparse : pyParseInt zone = some z) (hlo : 100 ≤ z) (hhi : z < 600) :
    (zone = "503" → aggregateZone zone = ⟨["total"], ["503"]⟩) ∧
    (zone ≠ "503" →
      aggregateZone zone =
        ⟨["total", toString (z / 100) ++ "xx"],
         [zone, toString (z / 100) ++ "xx"]⟩) := by
  have hcache : zone ∉ CACHE_OTHER_ZONES := by
    intro hmem
    rw [cache_other_not_numeric zone hmem] at hparse
    cases hparse
  constructor
  · rintro rfl
    simp only [aggregateZone, hparse]
    rw [if_neg hcache, if_neg (by omega)]
    simp
  · intro hne
    simp only [aggregateZone, hparse]
    rw [if_neg hcache, if_neg (by omega), if_neg hne]

/-- Witness for C8 (amended): zone `"500"` is summed into `total` and
`5xx`, and both `"500"` and `"5xx"` are recorded. -/
theorem status_zone_aggregation_witness :
    aggregateZone "500" =
      ⟨["total", toString ((500 : ℤ) / 100) ++ "xx"],
       ["500", toString ((500 : ℤ) / 100) ++ "xx"]⟩ :=
  (status_zone_aggregation "500" 500 (by decide) (by norm_num)
    (by norm_num)).2 (by decide)

/-! ## Histogram percentiles (`Histogram.get_percentiles`, lines 313-352)

`counts` is the list `[(le, count), ...]` built by the first loop of
`get_percentiles`: the per-bucket `get_diff` results in ascending `le`
order (`self._les` is a `SortedDict`).  The loop returns `None` upstream
if any diff is unavailable or a count decreases, and asserts every count
non-negative, so the per-`p` interpolation loop (lines 335-351) only
ever runs on available, non-negative, non-decreasing integer counts.
Bucket counters arrive as JSON integers, so counts are modelled as `ℤ`
(and a positive total means a total `≥ 1`). -/

/-- Ascending-`le` check: the `le` keys are non-decreasing starting from
the bound `x` (the `SortedDict` keys are strictly increasing and
non-negative; this weaker form suffices). -/
def lesAscFrom : ℚ → List (ℚ × ℤ) → Bool
  | _, [] => true
  | x, (le, _) :: rest => decide (x ≤ le) && lesAscFrom le rest

/-- Non-decreasing counts starting from the bound `c0`. -/
def countsMonoFrom : ℤ → List (ℚ × ℤ) → Bool
  | _, [] => true
  | c0, (_, c) :: rest => decide (c0 ≤ c) && countsMonoFrom c rest

/-- Embeds `num_requests = counts[-1][1]` (line 330). -/
def lastCount (counts : List (ℚ × ℤ)) : ℤ :=
  ((counts.getLast?).map Prod.snd).getD 0

/-- The per-percentile loop body (lines 337-350): walk the buckets,
stop at the first bucket whose count is `≥ target`, and linearly
interpolate between the previous bucket (`(0.0, 0)` for the first) and
it: `latency = low_le + (target - low_count)/(high_count - low_count) *
(high_le - low_le)`.  The accumulator `(lowLe, lowCount)` carries the
previous bucket. -/
def interpLatency : ℚ → ℤ → List (ℚ × ℤ) → ℤ → ℚ
  | lowLe, _, [], _ => lowLe
  | lowLe, lowCount, (le, c) :: rest, target =>
    if target ≤ c then
      lowLe +
        ((target - lowCount : ℤ) : ℚ) / ((c - lowCount : ℤ) : ℚ) * (le - lowLe)
    else interpLatency le c rest target

/-- The latency returned for one requested percentile `p` (lines
336-351): `target_count = max(int(p * num_requests), 1)`, then the
interpolation walk from `(0.0, 0)`. -/
def percentileOf (counts : List (ℚ × ℤ)) (p : ℚ) : ℚ :=
  interpLatency 0 0 counts (max (pyTrunc (p * (lastCount counts : ℚ))) 1)

/-- Helper: the interpolation result never drops below the running lower
bucket edge. -/
theorem interp_ge (counts : List (ℚ × ℤ)) :
    ∀ (lowLe : ℚ) (lowCount target : ℤ),
      lesAscFrom lowLe counts = true → lowCount < target →
      lowLe ≤ interpLatency lowLe lowCount counts target := by
  induction counts with
  | nil => intro lowLe lowCount target _ _; exact le_refl _
  | cons hd rest ih =>
    intro lowLe lowCount target hasc hlt
    obtain ⟨le, c⟩ := hd
    simp only [lesAscFrom, Bool.and_eq_true, decide_eq_true_eq] at hasc
    obtain ⟨hle, hrest⟩ := hasc
    simp only [interpLatency]
    by_cases htc : target ≤ c
    · rw [if_pos htc]
      have hden : (0 : ℚ) < ((c - lowCount : ℤ) : ℚ) := by
        exact_mod_cast (by omega : (0 : ℤ) < c - lowCount)
      have hnum : (0 : ℚ) ≤ ((target - lowCount : ℤ) : ℚ) := by
        exact_mod_cast (by omega : (0 : ℤ) ≤ target - lowCount)
      have hmul : 0 ≤ ((target - lowCount : ℤ) : ℚ) /
          ((c - lowCount : ℤ) : ℚ) * (le - lowLe) :=
        mul_nonneg (div_nonneg hnum (le_of_lt hden)) (by linarith)
      linarith
    · rw [if_neg htc]
      exact le_trans hle (ih le c target hrest (by omega))

/-- Helper: the interpolation walk is monotone in the target count. -/
theorem interp_mono (counts : List (ℚ × ℤ)) :
    ∀ (lowLe : ℚ) (lowCount t1 t2 : ℤ),
      lesAscFrom lowLe counts = true → lowCount < t1 → t1 ≤ t2 →
      interpLatency lowLe lowCount counts t1 ≤
        interpLatency lowLe lowCount counts t2 := by
  induction counts with
  | nil => intro lowLe lowCount t1 t2 _ _ _; exact le_refl _
  | cons hd rest ih =>
    intro lowLe lowCount t1 t2 hasc h1 h12
    obtain ⟨le, c⟩ := hd
    simp only [lesAscFrom, Bool.and_eq_true, decide_eq_true_eq] at hasc
    obtain ⟨hle, hrest⟩ := hasc
    simp only [interpLatency]
    by_cases h2c : t2 ≤ c
    · have h1c : t1 ≤ c := le_trans h12 h2c
      rw [if_pos h1c, if_pos h2c]
      have hden : (0 : ℚ) < ((c - lowCount : ℤ) : ℚ) := by
        exact_mod_cast (by omega : (0 : ℤ) < c - lowCount)
      have hnum : ((t1 - lowCount : ℤ) : ℚ) ≤ ((t2 - lowCount : ℤ) : ℚ) := by
        exact_mod_cast (by omega : (t1 - lowCount : ℤ) ≤ t2 - lowCount)
      have hfrac := (div_le_div_right hden).mpr hnum
      have := mul_le_mul_of_nonneg_right hfrac
        (show (0 : ℚ) ≤ le - lowLe by linarith)
      linarith
    · by_cases h1c : t1 ≤ c
      · rw [if_pos h1c, if_neg h2c]
        have hden : (0 : ℚ) < ((c - lowCount : ℤ) : ℚ) := by
          exact_mod_cast (by omega : (0 : ℤ) < c - lowCount)
        have hnum0 : (0 : ℚ) ≤ ((t1 - lowCount : ℤ) : ℚ) := by
          exact_mod_cast (by omega : (0 : ℤ) ≤ t1 - lowCount)
        have hfrac1 : ((t1 - lowCount : ℤ) : ℚ) /
            ((c - lowCount : ℤ) : ℚ) ≤ 1 := by
          rw [div_le_one hden]
          exact_mod_cast (by omega : (t1 - lowCount : ℤ) ≤ c - lowCount)
        have hres1 := mul_le_mul_of_nonneg_right hfrac1
          (show (0 : ℚ) ≤ le - lowLe by linarith)
        have hres2 : le ≤ interpLatency le c rest t2 :=
          interp_ge rest le c t2 hrest (by omega)
        linarith
      · rw [if_neg h1c, if_neg h2c]
        exact ih le c t1 t2 hrest (by omega) h12

/-- C7: for a histogram whose per-bucket diffs are available,
non-negative and non-decreasing in ascending `le` order with a positive
total, the interpolated latency is monotone in the requested percentile:
`p1 ≤ p2` in `[0, 1]` gives `latency(p1) ≤ latency(p2)`. -/
theorem percentile_monotone (counts : List (ℚ × ℤ)) (p1 p2 : ℚ)
    (hne : counts ≠ [])
    (hasc : lesAscFrom 0 counts = true)
    (hmono : countsMonoFrom 0 counts = true)
    (hN : 0 < lastCount counts)
    (h0 : 0 ≤ p1) (h12 : p1 ≤ p2) (h2 : p2 ≤ 1) :
    percentileOf counts p1 ≤ percentileOf counts p2 := by
  have hNq : (0 : ℚ) ≤ (lastCount counts : ℚ) := by
    exact_mod_cast le_of_lt hN
  have hmul : p1 * (lastCount counts : ℚ) ≤ p2 * (lastCount counts : ℚ) :=
    mul_le_mul_of_nonneg_right h12 hNq
  have h1nn : 0 ≤ p1 * (lastCount counts : ℚ) := mul_nonneg h0 hNq
  have h2nn : 0 ≤ p2 * (lastCount counts : ℚ) := le_trans h1nn hmul
  have htr : pyTrunc (p1 * (lastCount counts : ℚ)) ≤
      pyTrunc (p2 * (lastCount counts : ℚ)) := by
    simp only [pyTrunc, if_pos h1nn, if_pos h2nn]
    exact Int.floor_le_floor hmul
  exact interp_mono counts 0 0 _ _ hasc
    (lt_of_lt_of_le one_pos (le_max_right _ 1)) (max_le_max htr (le_refl 1))

/-- Witness for C7: the two-bucket histogram `[(le=1, 3), (le=2, 10)]`
with `p1 = 0`, `p2 = 1`. -/
theorem percentile_monotone_witness :
    percentileOf [(1, 3), (2, 10)] 0 ≤ percentileOf [(1, 3), (2, 10)] 1 :=
  percentile_monotone [(1, 3), (2, 10)] 0 1 (by decide) (by decide)
    (by decide) (by decide) (by norm_num) (by norm_num) (by norm_num)

/-! ## Checkpoint validation
(`CHECKPOINT_FMT`, `vtsaggregator.py` lines 119-131;
`validate2` / `_validate` / `_validate_dict` / `_validate_list`,
`typevalidator.py` lines 107-258)

`validateCheckpoint` is `_validate(CHECKPOINT_FMT, d)` specialized to
the constructs `CHECKPOINT_FMT` actually uses, following the generic
code:

* a `str` / `float` / `tuple` format entry checks `type(o)` exactly
  (`typevalidator.py` lines 229-233) — in particular an `int` does NOT
  validate as `float`, and a `tuple` of ANY length and content passes;
* a dict format iterates over the keys of the FORMAT only (lines
  176-206): value keys must exist and validate, an `OPTIONAL_KEY`
  validates only when present (lines 178-184), and — since
  `CHECKPOINT_FMT` contains no type-valued key — keys of the object not
  named in the format are never examined: extra keys are allowed (the
  the test suite of the validator asserts this, line 289);
* `[ZERO_OR_MORE, T]` accepts a list each of whose elements validates
  against `T` (lines 119-146 with a single segment). -/

/-- A Python value as found in a parsed checkpoint literal. -/
inductive PyVal where
  | str (s : String)
  | int (n : ℤ)
  | float (q : ℚ)
  | tuple (xs : List PyVal)
  | pylist (xs : List PyVal)
  | dict (kvs : List (String × PyVal))

/-- Checks `type(o) == str`. -/
def isStrV : PyVal → Bool
  | .str _ => true
  | _ => false

/-- Checks `type(o) == float`: ints are rejected (`typevalidator.py` line 313). -/
def isFloatV : PyVal → Bool
  | .float _ => true
  | _ => false

/-- Checks `type(o) == tuple`: arity and contents are not inspected. -/
def isTupleV : PyVal → Bool
  | .tuple _ => true
  | _ => false

/-- A required dict key of format `str` (`_validate_dict` lines
199-206): must exist and be a string. -/
def reqStr (o : Option PyVal) : Bool :=
  match o with
  | some w => isStrV w
  | none => false

/-- A required dict key of format `float`: must exist and be a float. -/
def reqFloat (o : Option PyVal) : Bool :=
  match o with
  | some w => isFloatV w
  | none => false

/-- An `OPTIONAL_KEY` of format `float` (`_validate_dict` lines
178-184): validated only when present. -/
def optFloat (o : Option PyVal) : Bool :=
  match o with
  | some w => isFloatV w
  | none => true

/-- A required key of format `[ZERO_OR_MORE, tuple]`: a list each of
whose elements is a tuple (`_validate_list` lines 119-146 with a single
segment; arity and contents are not inspected). -/
def reqTupleList (o : Option PyVal) : Bool :=
  match o with
  | some (.pylist xs) => xs.all isTupleV
  | _ => false

/-- The `key_dict` sub-format of `CHECKPOINT_FMT` (lines 121-126):
`name`, `backend`, `zone` must exist and be strings; `le` is an
`OPTIONAL_KEY` that must be a float when present; other keys are not
examined. -/
def validKeyDict (v : PyVal) : Bool :=
  match v with
  | .dict kvs =>
    reqStr (kvs.lookup "name") && reqStr (kvs.lookup "backend") &&
      reqStr (kvs.lookup "zone") && optFloat (kvs.lookup "le")
  | _ => false

/-- A required `key_dict` key: must exist and validate as a key dict. -/
def reqKeyDict (o : Option PyVal) : Bool :=
  match o with
  | some w => validKeyDict w
  | none => false

/-- One `timeseries` entry (lines 120-129): a dict with a valid
`key_dict` and a `data` list whose elements are tuples. -/
def validTimeseriesEntry (v : PyVal) : Bool :=
  match v with
  | .dict kvs =>
    reqKeyDict (kvs.lookup "key_dict") && reqTupleList (kvs.lookup "data")
  | _ => false

/-- A required `timeseries` key of format
`[ZERO_OR_MORE, <entry format>]`. -/
def reqEntryList (o : Option PyVal) : Bool :=
  match o with
  | some (.pylist xs) => xs.all validTimeseriesEntry
  | _ => false

/-- Embeds `validate2(CHECKPOINT_FMT, d)` specialized: `timeseries` is a list
of valid entries and `t_prev` is a float. -/
def validateCheckpoint (v : PyVal) : Bool :=
  match v with
  | .dict kvs =>
    reqEntryList (kvs.lookup "timeseries") && reqFloat (kvs.lookup "t_prev")
  | _ => false

/-- A checkpoint document whose only timeseries entry carries an extra
`key_dict` key (`extra`) and whose single data element is a 1-tuple
holding a string. -/
def badCheckpointDoc : PyVal :=
  .dict [("timeseries", .pylist [
    .dict [("key_dict", .dict [("name", .str "bytes"),
                               ("backend", .str "b"),
                               ("zone", .str "200"),
                               ("extra", .str "x")]),
           ("data", .pylist [.tuple [.str "nonsense"]])]]),
    ("t_prev", .float (-1))]

/-- C4 counterexample: a timeseries entry carrying an extra key beyond
`name`/`backend`/`zone`/`le` is NOT rejected, and a data element that is
not a 2-tuple of numerics is NOT rejected either: `badCheckpointDoc`
passes validation, so `validate2` does not raise and `State.load`
populates the store from it. -/
theorem checkpoint_validation_counterexample :
    validateCheckpoint badCheckpointDoc = true := by decide

/-! The amended acceptance condition, written out from the amended
words of the amended claim as a predicate, and proved equivalent to the embedded
validator. -/

/-- Amended `key_dict` condition: string `name`/`backend`/`zone`, and a
float `le` whenever the key `le` is present; extra keys unconstrained. -/
def KeyDictOKSpec (kvs : List (String × PyVal)) : Prop :=
  (∃ s, kvs.lookup "name" = some (.str s)) ∧
  (∃ s, kvs.lookup "backend" = some (.str s)) ∧
  (∃ s, kvs.lookup "zone" = some (.str s)) ∧
  (∀ w, kvs.lookup "le" = some w → ∃ q, w = .float q)

/-- Amended entry condition: a dict with a conforming `key_dict` and a
`data` list whose elements are tuples of any arity and content. -/
def EntryOKSpec (v : PyVal) : Prop :=
  ∃ kvs, v = .dict kvs ∧
    (∃ kd, kvs.lookup "key_dict" = some (.dict kd) ∧ KeyDictOKSpec kd) ∧
    (∃ xs, kvs.lookup "data" = some (.pylist xs) ∧
      ∀ x ∈ xs, ∃ ts, x = .tuple ts)

/-- Amended document condition. -/
def CheckpointOKSpec (v : PyVal) : Prop :=
  ∃ kvs, v = .dict kvs ∧
    (∃ xs, kvs.lookup "timeseries" = some (.pylist xs) ∧
      ∀ x ∈ xs, EntryOKSpec x) ∧
    (∃ q, kvs.lookup "t_prev" = some (.float q))

/-- Helper: `isTupleV` characterized. -/
theorem isTupleV_iff (w : PyVal) : isTupleV w = true ↔ ∃ ts, w = .tuple ts := by
  cases w <;> simp [isTupleV]

/-- Helper: a required string key characterized. -/
theorem reqStr_iff (o : Option PyVal) :
    reqStr o = true ↔ ∃ s, o = some (.str s) := by
  rcases o with - | w
  · simp [reqStr]
  · cases w <;> simp [reqStr, isStrV]

/-- Helper: a required float key characterized. -/
theorem reqFloat_iff (o : Option PyVal) :
    reqFloat o = true ↔ ∃ q, o = some (.float q) := by
  rcases o with - | w
  · simp [reqFloat]
  · cases w <;> simp [reqFloat, isFloatV]

/-- Helper: an optional float key characterized. -/
theorem optFloat_iff (o : Option PyVal) :
    optFloat o = true ↔ ∀ w, o = some w → ∃ q, w = PyVal.float q := by
  rcases o with - | w
  · simp [optFloat]
  · cases w <;> simp [optFloat, isFloatV]

/-- Helper: the `data` key characterized. -/
theorem reqTupleList_iff (o : Option PyVal) :
    reqTupleList o = true ↔
      ∃ xs, o = some (.pylist xs) ∧ ∀ x ∈ xs, ∃ ts, x = PyVal.tuple ts := by
  rcases o with - | w
  · simp [reqTupleList]
  · cases w <;> simp [reqTupleList, List.all_eq_true, isTupleV_iff]

/-- Helper: the `key_dict` validator against its amended condition. -/
theorem validKeyDict_iff (v : PyVal) :
    validKeyDict v = true ↔ ∃ kvs, v = .dict kvs ∧ KeyDictOKSpec kvs := by
  cases v <;>
    simp [validKeyDict, KeyDictOKSpec, reqStr_iff, optFloat_iff, and_assoc]

/-- Helper: the `key_dict` key characterized. -/
theorem reqKeyDict_iff (o : Option PyVal) :
    reqKeyDict o = true ↔
      ∃ kd, o = some (.dict kd) ∧ KeyDictOKSpec kd := by
  rcases o with - | w
  · simp [reqKeyDict]
  · simp only [reqKeyDict, validKeyDict_iff, Option.some.injEq]

/-- Helper: one entry validator against its amended condition. -/
theorem validTimeseriesEntry_iff (v : PyVal) :
    validTimeseriesEntry v = true ↔ EntryOKSpec v := by
  cases v <;>
    simp [validTimeseriesEntry, EntryOKSpec, reqKeyDict_iff, reqTupleList_iff]

/-- Helper: the `timeseries` key characterized. -/
theorem reqEntryList_iff (o : Option PyVal) :
    reqEntryList o = true ↔
      ∃ xs, o = some (.pylist xs) ∧ ∀ x ∈ xs, EntryOKSpec x := by
  rcases o with - | w
  · simp [reqEntryList]
  · cases w <;>
      simp [reqEntryList, List.all_eq_true, validTimeseriesEntry_iff]

/-- C4 (amended): checkpoint validation accepts exactly the documents
with a `timeseries` list of dict entries — each with a `key_dict` whose
`name`, `backend`, `zone` are strings and whose `le`, if present, is a
float, and a `data` list whose elements are tuples of any arity and
content — and a float `t_prev`.  Extra keys (in `key_dict`, in an entry,
or at top level) are allowed, not rejected. -/
theorem checkpoint_validation_spec (v : PyVal) :
    validateCheckpoint v = true ↔ CheckpointOKSpec v := by
  cases v <;>
    simp [validateCheckpoint, CheckpointOKSpec, reqEntryList_iff,
      reqFloat_iff]

end Vts
